import Mathlib

/-!
Shallow embedding of the Utopia VSCode extension module (`extension.ts`):
the dirty-content reconciler, the decoration mirror, the selection/cursor
mirror (reveal logic), the bounded file-open retry and the filesystem error
translation, together with proofs about their behaviour.

Host-editor (VSCode) API values (positions, ranges, selections, documents,
the focus flag, configuration) are embedded as explicit data; asynchronous
collaborator calls (virtual file store reads/writes, applying a workspace
edit, the prettier formatter) are embedded as explicit inputs and emitted
effects.
-/

set_option autoImplicit false

namespace UtopiaVSCode

/-- A zero-based (line, character) position, as in the vscode API. -/
structure Position where
  line : Nat
  character : Nat
  deriving DecidableEq, Repr

/-- `Position.isBeforeOrEqual` from the vscode API: lexicographic order on
(line, character). -/
def Position.isBeforeOrEqual (p q : Position) : Bool :=
  p.line < q.line || (p.line == q.line && p.character ≤ q.character)

/-- A range between two positions; the field `stop` embeds the vscode field
`end` (a reserved word in Lean). -/
structure Range where
  start : Position
  stop : Position
  deriving DecidableEq, Repr

/-- `Range.contains` applied to a range argument, as in the vscode API:
the outer range contains the start and the end of the inner one. -/
def Range.containsRange (outer inner : Range) : Bool :=
  outer.start.isBeforeOrEqual inner.start && inner.stop.isBeforeOrEqual outer.stop

/-- `Bounds` from utopia-vscode-common: zero-based start/end line and column. -/
structure Bounds where
  startLine : Nat
  endLine : Nat
  startCol : Nat
  endCol : Nat
  deriving DecidableEq, Repr

/-- `getVSCodeRange`: the range from `startLine/startCol` to `endLine/endCol`. -/
def getVSCodeRange (bounds : Bounds) : Range :=
  ⟨⟨bounds.startLine, bounds.startCol⟩, ⟨bounds.endLine, bounds.endCol⟩⟩

/-- `getVSCodeRangeForScrolling`: like `getVSCodeRange` but the start column
is forced to 0. -/
def getVSCodeRangeForScrolling (bounds : Bounds) : Range :=
  ⟨⟨bounds.startLine, 0⟩, ⟨bounds.endLine, bounds.endCol⟩⟩

/-- Stand-in for the JavaScript `Number.MAX_VALUE` used in `entireDocRange`:
an integer larger than any line or column of a real document. -/
def numberMaxValue : Nat := 2 ^ 1024

/-- `entireDocRange()`: the range from (0,0) to (MAX, MAX), used for
full-document replacements. -/
def entireDocRange : Range :=
  ⟨⟨0, 0⟩, ⟨numberMaxValue, numberMaxValue⟩⟩

/-! ## Dirty-content reconciler state

The module-level mutable sets `dirtyFiles` and `incomingFileChanges`. -/

/-- The two module-level sets of paths: `dirtyFiles` (unsaved local edits)
and `incomingFileChanges` (store-originated writes in flight). -/
structure ExtState where
  dirtyFiles : Finset String
  incomingFileChanges : Finset String
  deriving DecidableEq

/-- Calls made to the virtual file store by the reconciler handlers. -/
inductive StoreEffect where
  | writeUnsaved (path text : String)
  | clearUnsaved (path : String)
  deriving DecidableEq, Repr

/-- A local text-document event as observed by `onDidChangeTextDocument`:
the document's URI scheme, its path (`fromUtopiaURI` already applied),
its dirty flag and its full text. -/
structure TextDocEvent where
  scheme : String
  path : String
  isDirty : Bool
  text : String
  deriving DecidableEq

/-- The `onDidChangeTextDocument` handler of `watchForChangesFromVSCode`:
for a document of the managed scheme that is dirty, add the path to
`dirtyFiles`; if the path is in `incomingFileChanges` consume the mark
(the change came from Utopia), otherwise write the full document text to
the store's unsaved-content slot. (The source checks the scheme twice,
via `isUtopiaDocument` and again on `resource.scheme`; both compare the
same scheme with `projectID`, so a single test embeds both.) -/
def onDidChangeTextDocument (projectID : String) (s : ExtState) (e : TextDocEvent) :
    ExtState × List StoreEffect :=
  if e.scheme = projectID then
    if e.isDirty then
      let dirty' := insert e.path s.dirtyFiles
      if e.path ∈ s.incomingFileChanges then
        (⟨dirty', s.incomingFileChanges.erase e.path⟩, [])
      else
        (⟨dirty', s.incomingFileChanges⟩, [StoreEffect.writeUnsaved e.path e.text])
    else (s, [])
  else (s, [])

/-- `updateDirtyContent`: given the store's unsaved-content read result for
`filePath` and whether the subsequent `applyEdit` succeeded, return the new
state and the full-document buffer replacement issued (if any). When the
unsaved content is `none`, nothing happens. Otherwise the path is first
added to `incomingFileChanges` and a full-document replacement with the
unsaved content is applied; if the edit application fails, the path is
removed again. -/
def updateDirtyContent (s : ExtState) (filePath : String) (unsavedContent : Option String)
    (editApplied : Bool) : ExtState × Option (String × String) :=
  match unsavedContent with
  | none => (s, none)
  | some content =>
    let s1 : ExtState := ⟨s.dirtyFiles, insert filePath s.incomingFileChanges⟩
    if editApplied then
      (s1, some (filePath, content))
    else
      (⟨s1.dirtyFiles, s1.incomingFileChanges.erase filePath⟩, some (filePath, content))

/-- Save reasons from the vscode API (`TextDocumentSaveReason`). -/
inductive TextDocumentSaveReason where
  | Manual
  | AfterDelay
  | FocusOut
  deriving DecidableEq, Repr

/-- A text edit: a range and replacement text, as pushed through
`event.waitUntil` in the will-save handler. -/
structure TextEdit where
  range : Range
  newText : String
  deriving DecidableEq

/-- The `onWillSaveTextDocument` handler: for a managed document, delete the
path from `dirtyFiles`; when the save reason is `Manual`, contribute a single
full-document replacement whose text is the prettier output for the current
document text (`applyPrettier(text, false).formatted` is embedded as the
function argument `formatted`). -/
def onWillSaveTextDocument (projectID : String) (s : ExtState) (scheme path text : String)
    (reason : TextDocumentSaveReason) (formatted : String → String) :
    ExtState × List TextEdit :=
  if scheme = projectID then
    let s1 : ExtState := ⟨s.dirtyFiles.erase path, s.incomingFileChanges⟩
    if reason = TextDocumentSaveReason.Manual then
      (s1, [⟨entireDocRange, formatted text⟩])
    else (s1, [])
  else (s, [])

/-- The `onDidCloseTextDocument` handler: for a managed document whose path
is in `dirtyFiles`, clear the store's unsaved content for the path and
delete the path from `dirtyFiles`. -/
def onDidCloseTextDocument (projectID : String) (s : ExtState) (scheme path : String) :
    ExtState × List StoreEffect :=
  if scheme = projectID then
    if path ∈ s.dirtyFiles then
      (⟨s.dirtyFiles.erase path, s.incomingFileChanges⟩, [StoreEffect.clearUnsaved path])
    else (s, [])
  else (s, [])

/-! ## Selection/cursor mirror: the reveal logic -/

/-- `rangesIntersectLinesOnly`: the line spans overlap, columns ignored. -/
def rangesIntersectLinesOnly (first second : Range) : Bool :=
  first.start.line ≤ second.stop.line && second.start.line ≤ first.stop.line

/-- The observable outcome of a reveal on an already-visible editor: the
selection assigned to the editor (if any) and whether `revealRange` was
called. -/
structure RevealOutcome where
  selectionMove : Option Range
  scrolled : Bool
  deriving DecidableEq, Repr

/-- The outcome when nothing is done at all. -/
def skippedOutcome : RevealOutcome := ⟨none, false⟩

/-- The visible-editor branch of `revealRangeIfPossible`: compute
`rangeToReveal` from the bounds with the start column zeroed; the target
counts as already selected when the current selection's lines overlap its
lines; `alreadyVisible` holds when some visible range contains the current
selection; if not already selected, move the selection to a collapsed
selection at the start of `getVSCodeRange bounds`; call `revealRange`
unless the target was already selected and `alreadyVisible` held. -/
def revealInVisibleEditor (selection : Range) (visibleRanges : List Range)
    (bounds : Bounds) : RevealOutcome :=
  let rangeToReveal := getVSCodeRangeForScrolling bounds
  let alreadySelected := rangesIntersectLinesOnly selection rangeToReveal
  let alreadyVisible := visibleRanges.any (fun r => r.containsRange selection)
  let selectionMove :=
    if !alreadySelected then
      let selectionRange := getVSCodeRange bounds
      some (Range.mk selectionRange.start selectionRange.start)
    else none
  let shouldReveal := !(alreadySelected && alreadyVisible)
  ⟨selectionMove, shouldReveal⟩

/-- `revealRangeIfPossible` restricted to the case where an editor for the
file is visible: the body runs only when `forceIfFocused || !focused`. -/
def revealRangeIfPossible (focused forceIfFocused : Bool) (selection : Range)
    (visibleRanges : List Range) (bounds : Bounds) : RevealOutcome :=
  if forceIfFocused || !focused then revealInVisibleEditor selection visibleRanges bounds
  else skippedOutcome

/-- The `SELECTED_ELEMENT_CHANGED` arm of `handleMessage`: when the
follow-selection config is enabled, call `revealRangeIfPossible` with the
force flag at its default `false`. -/
def handleSelectedElementChanged (followSelectionEnabled focused : Bool)
    (selection : Range) (visibleRanges : List Range) (bounds : Bounds) : RevealOutcome :=
  if followSelectionEnabled then
    revealRangeIfPossible focused false selection visibleRanges bounds
  else skippedOutcome

/-! ## Bounded file-open retry -/

/-- `openFile fileExists attemptIndex retries`: embeds the recursive
`openFile(fileUri, retries)`. `fileExists i` is the result of the i-th
existence check against the virtual store; the call performs one existence
check, opens the file on success, and otherwise retries after a delay while
`retries > 0`. Returns the success flag and the total number of attempts
(existence checks) performed from `attemptIndex` on. -/
def openFile (fileExists : Nat → Bool) (attemptIndex retries : Nat) : Bool × Nat :=
  if fileExists attemptIndex then (true, attemptIndex + 1)
  else
    match retries with
    | 0 => (false, attemptIndex + 1)
    | r + 1 => openFile fileExists (attemptIndex + 1) r

/-! ## Decoration mirror -/

/-- `DecorationRangeType` from utopia-vscode-common. -/
inductive DecorationRangeType where
  | highlight
  | selection
  deriving DecidableEq, Repr

/-- `allDecorationRangeTypes = ['highlight', 'selection']`. -/
def allDecorationRangeTypes : List DecorationRangeType :=
  [DecorationRangeType.highlight, DecorationRangeType.selection]

/-- `DecorationRange` from utopia-vscode-common. -/
structure DecorationRange where
  filePath : String
  rangeType : DecorationRangeType
  startLine : Nat
  endLine : Nat
  startCol : Nat
  endCol : Nat
  deriving DecidableEq, Repr

/-- The bounds fields of a `DecorationRange`; TypeScript's structural typing
passes a `DecorationRange` directly where a `Bounds` is expected. -/
def DecorationRange.bounds (r : DecorationRange) : Bounds :=
  ⟨r.startLine, r.endLine, r.startCol, r.endCol⟩

/-- `DecorationsByType`: the inner dictionary keyed by range type, embedded
as an association list in insertion order. -/
def DecorationsByType : Type := List (DecorationRangeType × List DecorationRange)

/-- `DecorationsByFilenameAndType`: the outer dictionary keyed by filename,
embedded as an association list in insertion order. -/
def DecorationsByFilenameAndType : Type := List (String × DecorationsByType)

/-- Lookup in the inner dictionary (`rangeType in decorationsForFilename` /
`decorationsForFilename[rangeType]`). -/
def lookupByType : DecorationsByType → DecorationRangeType → Option (List DecorationRange)
  | [], _ => none
  | (t, rs) :: rest, rangeType =>
    if t = rangeType then some rs else lookupByType rest rangeType

/-- Lookup in the outer dictionary (`range.filePath in result` /
`result[filePath]`). -/
def lookupByFilename : DecorationsByFilenameAndType → String → Option DecorationsByType
  | [], _ => none
  | (f, d) :: rest, filename =>
    if f = filename then some d else lookupByFilename rest filename

/-- The inner step of the loop body of `getDecorationsByFilenameAndType`:
push `range` onto the list for its range type, creating the entry if absent
(in-place dictionary mutation embedded as association-list update). -/
def pushByType : DecorationsByType → DecorationRange → DecorationsByType
  | [], range => [(range.rangeType, [range])]
  | (t, rs) :: rest, range =>
    if t = range.rangeType then (t, rs ++ [range]) :: rest
    else (t, rs) :: pushByType rest range

/-- The loop body of `getDecorationsByFilenameAndType`: find or create the
entry for the range's file path and push the range into its per-type list. -/
def pushRange : DecorationsByFilenameAndType → DecorationRange → DecorationsByFilenameAndType
  | [], range => [(range.filePath, pushByType [] range)]
  | (f, d) :: rest, range =>
    if f = range.filePath then (f, pushByType d range) :: rest
    else (f, d) :: pushRange rest range

/-- `getDecorationsByFilenameAndType`: fold the loop body over the
decorations, starting from the empty dictionary. -/
def getDecorationsByFilenameAndType (decorations : List DecorationRange) :
    DecorationsByFilenameAndType :=
  decorations.foldl pushRange []

/-- One `visibleEditor.setDecorations(type, ranges)` call. -/
structure SetDecorationsCall where
  editorPath : String
  decorationType : DecorationRangeType
  ranges : List Range
  deriving DecidableEq, Repr

/-- `updateDecorations`: group the decorations by filename and type, then
for every visible editor (identified by its document path) and every known
range type issue one `setDecorations` call, defaulting missing entries to
the empty list and converting each decoration through `getVSCodeRange`. -/
def updateDecorations (decorations : List DecorationRange)
    (visibleEditorPaths : List String) : List SetDecorationsCall :=
  let decorationsByFilenameAndType := getDecorationsByFilenameAndType decorations
  visibleEditorPaths.flatMap fun filename =>
    let decs := (lookupByFilename decorationsByFilenameAndType filename).getD []
    allDecorationRangeTypes.map fun rangeType =>
      let decorationsForType := (lookupByType decs rangeType).getD []
      ⟨filename, rangeType, decorationsForType.map (fun r => getVSCodeRange r.bounds)⟩

/-! ## Filesystem error translation -/

/-- `vscode.FileSystemError` values produced by the translation. -/
inductive FileSystemError where
  | FileNotFound (path : String)
  | FileIsADirectory (path : String)
  | FileNotADirectory (path : String)
  | FileExists (path : String)
  deriving DecidableEq, Repr

/-- `toFileSystemProviderError`: adjust the path with `toUtopiaPath`
(supplied as a function argument, it lives in utopia-vscode-common) and map
the four known error codes to their host-editor errors; any other code is
thrown (`Except.error`) rather than translated. -/
def toFileSystemProviderError (toUtopiaPath : String → String → String)
    (projectID : String) (errPath errCode : String) : Except String FileSystemError :=
  let path := toUtopiaPath projectID errPath
  match errCode with
  | "ENOENT" => Except.ok (FileSystemError.FileNotFound path)
  | "EISDIR" => Except.ok (FileSystemError.FileIsADirectory path)
  | "ENOTDIR" => Except.ok (FileSystemError.FileNotADirectory path)
  | "EEXIST" => Except.ok (FileSystemError.FileExists path)
  | _ => Except.error "Unhandled FS Error"

/-! ## Theorems -/

/-- C10: when the store read yields no unsaved content, `updateDirtyContent`
changes nothing: the state is returned unchanged and no buffer edit is
issued. -/
theorem updateDirtyContent_none_frame (s : ExtState) (filePath : String)
    (editApplied : Bool) :
    updateDirtyContent s filePath none editApplied = (s, none) := rfl

/-- C2: after a store-originated unsaved-content change is successfully
applied (path marked incoming, edit applied), the next local document-edit
notification for that path writes nothing to the store and removes the path
from `incomingFileChanges`: the suppression mark is single-use. -/
theorem no_echo_after_applied_incoming_change (s : ExtState)
    (projectID p content text : String) :
    (onDidChangeTextDocument projectID (updateDirtyContent s p (some content) true).1
      ⟨projectID, p, true, text⟩).2 = [] ∧
    p ∉ (onDidChangeTextDocument projectID (updateDirtyContent s p (some content) true).1
      ⟨projectID, p, true, text⟩).1.incomingFileChanges := by
  simp [onDidChangeTextDocument, updateDirtyContent]

/-- C3: when applying the store-originated buffer replacement fails, the
path is removed from `incomingFileChanges` at once, so the next local
document-edit notification for that path does write the document text back
to the store's unsaved-content slot. -/
theorem echo_resumes_after_failed_edit (s : ExtState)
    (projectID p content text : String) :
    p ∉ (updateDirtyContent s p (some content) false).1.incomingFileChanges ∧
    (onDidChangeTextDocument projectID (updateDirtyContent s p (some content) false).1
      ⟨projectID, p, true, text⟩).2 = [StoreEffect.writeUnsaved p text] := by
  simp [onDidChangeTextDocument, updateDirtyContent]

/-- C7: when the existence check never succeeds, `openFile` performs the
initial attempt plus exactly 5 delayed retries (6 attempts in total, never
a 7th) and returns failure. -/
theorem openFile_retry_bound (fileExists : Nat → Bool)
    (h : ∀ i, fileExists i = false) :
    openFile fileExists 0 5 = (false, 6) := by
  simp [openFile, h]

/-- Witness for C7 at the concrete always-absent existence check. -/
theorem openFile_retry_bound_witness : openFile (fun _ => false) 0 5 = (false, 6) :=
  openFile_retry_bound (fun _ => false) (fun _ => rfl)

/-- C8: the error translation maps ENOENT, EISDIR, ENOTDIR and EEXIST to
the four host-editor errors, each carrying the adjusted path, and throws on
any other code. -/
theorem fs_error_translation (toUtopiaPath : String → String → String)
    (projectID p : String) :
    toFileSystemProviderError toUtopiaPath projectID p "ENOENT" =
      Except.ok (FileSystemError.FileNotFound (toUtopiaPath projectID p)) ∧
    toFileSystemProviderError toUtopiaPath projectID p "EISDIR" =
      Except.ok (FileSystemError.FileIsADirectory (toUtopiaPath projectID p)) ∧
    toFileSystemProviderError toUtopiaPath projectID p "ENOTDIR" =
      Except.ok (FileSystemError.FileNotADirectory (toUtopiaPath projectID p)) ∧
    toFileSystemProviderError toUtopiaPath projectID p "EEXIST" =
      Except.ok (FileSystemError.FileExists (toUtopiaPath projectID p)) ∧
    ∀ c, c ≠ "ENOENT" → c ≠ "EISDIR" → c ≠ "ENOTDIR" → c ≠ "EEXIST" →
      toFileSystemProviderError toUtopiaPath projectID p c =
        Except.error "Unhandled FS Error" := by
  refine ⟨rfl, rfl, rfl, rfl, ?_⟩
  intro c h1 h2 h3 h4
  unfold toFileSystemProviderError
  split <;> simp_all

/-- Witness for C8 at a concrete unrecognised code. -/
theorem fs_error_translation_witness :
    toFileSystemProviderError (fun pid p => pid ++ p) "proj" "/a" "EPERM" =
      Except.error "Unhandled FS Error" :=
  (fs_error_translation (fun pid p => pid ++ p) "proj" "/a").2.2.2.2 "EPERM"
    (by decide) (by decide) (by decide) (by decide)

/-- C5: closing a managed document whose path is dirty issues exactly one
clear-unsaved-content store call and removes the path from `dirtyFiles`;
closing a document whose path is not dirty performs no store call and
leaves the state unchanged. -/
theorem close_clears_dirty_and_store (s : ExtState) (projectID path : String) :
    (path ∈ s.dirtyFiles →
      (onDidCloseTextDocument projectID s projectID path).2 =
        [StoreEffect.clearUnsaved path] ∧
      path ∉ (onDidCloseTextDocument projectID s projectID path).1.dirtyFiles) ∧
    (path ∉ s.dirtyFiles →
      onDidCloseTextDocument projectID s projectID path = (s, [])) := by
  constructor
  · intro h
    simp [onDidCloseTextDocument, h]
  · intro h
    simp [onDidCloseTextDocument, h]

/-- Witness for C5 at a concrete dirty document. -/
theorem close_clears_dirty_and_store_witness :
    (onDidCloseTextDocument "proj" ⟨{"/a.txt"}, ∅⟩ "proj" "/a.txt").2 =
      [StoreEffect.clearUnsaved "/a.txt"] ∧
    "/a.txt" ∉ (onDidCloseTextDocument "proj" ⟨{"/a.txt"}, ∅⟩ "proj" "/a.txt").1.dirtyFiles :=
  (close_clears_dirty_and_store ⟨{"/a.txt"}, ∅⟩ "proj" "/a.txt").1 (by decide)

/-- Counterexample to C4 as stated: on a dirty managed document, a save
whose reason is not `Manual` (here an auto-save after delay) clears the
dirty flag but contributes no text edit, so the saved text is the pre-save
text "x", which differs from the formatter's output "x!". -/
theorem save_reformat_counterexample :
    "/a.txt" ∈ ({"/a.txt"} : Finset String) ∧
    (onWillSaveTextDocument "proj" ⟨{"/a.txt"}, ∅⟩ "proj" "/a.txt" "x"
      TextDocumentSaveReason.AfterDelay (fun t => t ++ "!")).2 = [] ∧
    (fun t => t ++ "!") "x" ≠ "x" := by
  refine ⟨by decide, rfl, by decide⟩

/-- C4 amended: the will-save handler always removes the path from
`dirtyFiles`, and exactly when the save reason is `Manual` it applies a
single full-document replacement whose text is the formatter's output on
the full pre-save text (no edit is contributed for other save reasons). -/
theorem save_clears_dirty_and_reformats (s : ExtState) (projectID path text : String)
    (reason : TextDocumentSaveReason) (formatted : String → String) :
    onWillSaveTextDocument projectID s projectID path text reason formatted =
      (⟨s.dirtyFiles.erase path, s.incomingFileChanges⟩,
        if reason = TextDocumentSaveReason.Manual
          then [⟨entireDocRange, formatted text⟩] else []) := by
  unfold onWillSaveTextDocument
  rw [if_pos rfl]
  split <;> rfl

/-- Counterexample to C1 as stated: follow-selection enabled, no force flag,
window focused — the claim requires the reveal to be performed, but the
handler skips it entirely, although the reveal body would have moved the
selection and scrolled. -/
theorem reveal_focus_counterexample :
    handleSelectedElementChanged true true ⟨⟨0, 0⟩, ⟨0, 0⟩⟩ [] ⟨5, 5, 0, 3⟩ =
      skippedOutcome ∧
    revealInVisibleEditor ⟨⟨0, 0⟩, ⟨0, 0⟩⟩ [] ⟨5, 5, 0, 3⟩ =
      ⟨some ⟨⟨5, 0⟩, ⟨5, 0⟩⟩, true⟩ := by
  decide

/-- C1 amended: with follow-selection enabled and no force flag, the reveal
body runs exactly when the window is NOT focused; when the window is
focused the reveal is skipped entirely. -/
theorem reveal_runs_iff_unfocused (sel : Range) (vis : List Range) (b : Bounds) :
    handleSelectedElementChanged true false sel vis b = revealInVisibleEditor sel vis b ∧
    handleSelectedElementChanged true true sel vis b = skippedOutcome :=
  ⟨rfl, rfl⟩

/-- Counterexample to C9 as stated: the target's lines overlap the current
selection's lines (so it counts as selected) and the target range is NOT
contained in any visible range, yet no scroll call occurs — because the
code tests visibility of the current selection, not of the target. -/
theorem reveal_scroll_counterexample :
    rangesIntersectLinesOnly ⟨⟨3, 0⟩, ⟨3, 1⟩⟩ (getVSCodeRangeForScrolling ⟨3, 4, 0, 5⟩) =
      true ∧
    ([⟨⟨2, 0⟩, ⟨3, 9⟩⟩] : List Range).any
      (fun r => r.containsRange (getVSCodeRangeForScrolling ⟨3, 4, 0, 5⟩)) = false ∧
    revealInVisibleEditor ⟨⟨3, 0⟩, ⟨3, 1⟩⟩ [⟨⟨2, 0⟩, ⟨3, 9⟩⟩] ⟨3, 4, 0, 5⟩ =
      ⟨none, false⟩ := by
  decide

/-- C9 amended: the selection is moved (to a collapsed selection at the
target range's start) exactly when the current selection's lines do not
overlap the target's lines, and a scroll call occurs exactly when the
target was not both already selected (line-only overlap) and the CURRENT
SELECTION contained in some visible range. -/
theorem reveal_line_overlap_behaviour (sel : Range) (vis : List Range) (b : Bounds) :
    (revealInVisibleEditor sel vis b).selectionMove =
      (if rangesIntersectLinesOnly sel (getVSCodeRangeForScrolling b) then none
       else some ⟨(getVSCodeRange b).start, (getVSCodeRange b).start⟩) ∧
    (revealInVisibleEditor sel vis b).scrolled =
      !(rangesIntersectLinesOnly sel (getVSCodeRangeForScrolling b) &&
        vis.any (fun r => r.containsRange sel)) := by
  unfold revealInVisibleEditor
  cases h : rangesIntersectLinesOnly sel (getVSCodeRangeForScrolling b) <;> simp [h]

/-- The ranges recorded for a (filename, type) pair, defaulting missing
entries to the empty list exactly as `updateDecorations` does. -/
def rangesFor (d : DecorationsByFilenameAndType) (f : String)
    (t : DecorationRangeType) : List DecorationRange :=
  (lookupByType ((lookupByFilename d f).getD []) t).getD []

theorem lookupByType_pushByType (d : DecorationsByType) (r : DecorationRange)
    (t : DecorationRangeType) :
    (lookupByType (pushByType d r) t).getD [] =
      (lookupByType d t).getD [] ++ (if r.rangeType = t then [r] else []) := by
  induction d with
  | nil =>
    by_cases h : r.rangeType = t <;> simp [pushByType, lookupByType, h]
  | cons p rest ih =>
    obtain ⟨t1, rs⟩ := p
    by_cases h1 : t1 = r.rangeType
    · by_cases h2 : t1 = t
      · have hr : r.rangeType = t := by rw [← h1]; exact h2
        simp [pushByType, lookupByType, h1, h2, hr]
      · have hr : ¬r.rangeType = t := by rw [← h1]; exact h2
        simp [pushByType, lookupByType, h1, h2, hr]
    · by_cases h2 : t1 = t
      · have hr : ¬r.rangeType = t := fun hc => h1 (h2.trans hc.symm)
        have hr2 : ¬t = r.rangeType := fun hc => h1 (h2.trans hc)
        simp [pushByType, lookupByType, h1, h2, hr, hr2]
      · simp [pushByType, lookupByType, h1, h2, ih]

theorem rangesFor_pushRange (d : DecorationsByFilenameAndType) (r : DecorationRange)
    (f : String) (t : DecorationRangeType) :
    rangesFor (pushRange d r) f t =
      rangesFor d f t ++ (if r.filePath = f ∧ r.rangeType = t then [r] else []) := by
  induction d with
  | nil =>
    by_cases h : r.filePath = f <;> by_cases ht : r.rangeType = t <;>
      simp [pushRange, rangesFor, lookupByFilename, lookupByType, pushByType, h, ht]
  | cons p rest ih =>
    obtain ⟨f1, ds⟩ := p
    by_cases h1 : f1 = r.filePath
    · by_cases h2 : f1 = f
      · have hf : r.filePath = f := by rw [← h1]; exact h2
        simp [pushRange, rangesFor, lookupByFilename, h1, h2, hf,
          lookupByType_pushByType]
      · have hf : ¬r.filePath = f := by rw [← h1]; exact h2
        simp [pushRange, rangesFor, lookupByFilename, h1, h2, hf]
    · by_cases h2 : f1 = f
      · have hf : ¬r.filePath = f := fun hc => h1 (h2.trans hc.symm)
        have hf2 : ¬f = r.filePath := fun hc => h1 (h2.trans hc)
        simp [pushRange, rangesFor, lookupByFilename, h1, h2, hf, hf2]
      · simpa [pushRange, rangesFor, lookupByFilename, h1, h2] using ih

theorem rangesFor_foldl (l : List DecorationRange) (d : DecorationsByFilenameAndType)
    (f : String) (t : DecorationRangeType) :
    rangesFor (l.foldl pushRange d) f t =
      rangesFor d f t ++
        l.filter (fun r => decide (r.filePath = f ∧ r.rangeType = t)) := by
  induction l generalizing d with
  | nil => simp
  | cons r l ih =>
    by_cases h : r.filePath = f ∧ r.rangeType = t <;>
      simp [List.foldl, ih, rangesFor_pushRange, h, List.filter_cons]

theorem rangesFor_getDecorations (decorations : List DecorationRange) (f : String)
    (t : DecorationRangeType) :
    rangesFor (getDecorationsByFilenameAndType decorations) f t =
      decorations.filter (fun r => decide (r.filePath = f ∧ r.rangeType = t)) := by
  simpa [rangesFor, lookupByFilename, lookupByType,
    getDecorationsByFilenameAndType] using rangesFor_foldl decorations [] f t

/-- C6: `updateDecorations` issues, for every visible document in order,
exactly one call per known range type — highlight then selection — whose
ranges are exactly the input decorations with that file path and type (in
input order, converted through `getVSCodeRange`), the empty list when no
input decoration matches; in particular, for the single selection range on
a.txt with visible documents a.txt and b.txt, a.txt gets an empty highlight
call and a one-range selection call and b.txt gets two empty calls. -/
theorem decoration_replace_all (decorations : List DecorationRange)
    (visible : List String) :
    updateDecorations decorations visible =
      visible.flatMap (fun f =>
        [⟨f, DecorationRangeType.highlight,
            (decorations.filter
              (fun r => decide (r.filePath = f ∧ r.rangeType = DecorationRangeType.highlight))).map
              (fun r => getVSCodeRange r.bounds)⟩,
         ⟨f, DecorationRangeType.selection,
            (decorations.filter
              (fun r => decide (r.filePath = f ∧ r.rangeType = DecorationRangeType.selection))).map
              (fun r => getVSCodeRange r.bounds)⟩]) ∧
    updateDecorations [⟨"a.txt", DecorationRangeType.selection, 0, 0, 0, 5⟩]
        ["a.txt", "b.txt"] =
      [⟨"a.txt", DecorationRangeType.highlight, []⟩,
       ⟨"a.txt", DecorationRangeType.selection, [⟨⟨0, 0⟩, ⟨0, 5⟩⟩]⟩,
       ⟨"b.txt", DecorationRangeType.highlight, []⟩,
       ⟨"b.txt", DecorationRangeType.selection, []⟩] := by
  constructor
  · have key := rangesFor_getDecorations decorations
    simp only [rangesFor] at key
    simp [updateDecorations, allDecorationRangeTypes, key]
  · decide

end UtopiaVSCode
